import Mathlib

/-!
# Verification of the MyTube media core

Shallow embedding of the repository's media-delivery core
(`video_app/streaming.py`, `video_app/torrent_downloader.py`) and proofs
about it.  Python strings are modelled as `List Char`, Python `int` as
`Int`/`Nat`, file bodies as `List Nat` (one entry per byte).
-/

namespace MyTube

/-- Python `str.split(sep)` for a one-character separator: splits on every
occurrence, keeping empty pieces (`"".split("-") == [""]`). -/
def splitOnChar (c : Char) : List Char → List (List Char)
  | [] => [[]]
  | x :: xs =>
    if x = c then [] :: splitOnChar c xs
    else
      match splitOnChar c xs with
      | [] => [[x]]
      | h :: t => (x :: h) :: t

/-- Numeric value of a digit string, most significant digit first
(the accumulator fold Python's `int` performs on a digit string). -/
def digitsVal (s : List Char) : Nat :=
  s.foldl (fun a c => 10 * a + (c.toNat - 48)) 0

/-- The characters `int()` strips around a numeric literal, within the
latin-1 range: CPython accepts exactly TAB, LF, VT, FF, CR, SPACE, NEL
(U+0085) and NBSP (U+00A0) there (notably NOT U+001C-U+001F, which
`str.isspace` reports as whitespace but `int()` rejects). -/
def pyIntWs (c : Char) : Bool :=
  [9, 10, 11, 12, 13, 32, 133, 160].contains c.toNat

/-- Strip the surrounding whitespace `int()` tolerates. -/
def pyStrip (s : List Char) : List Char :=
  ((s.dropWhile pyIntWs).reverse.dropWhile pyIntWs).reverse

/-- The digit scanner of `int()` after sign handling: ASCII digits with
single separating underscores (`int("5_0") == 50`; a leading, trailing or
doubled underscore fails).  `prevDigit` records whether the previous
character was a digit — an underscore is admissible only right after one,
and the literal may not end on one. -/
def pyDigitsAux : List Char → Nat → Bool → Option Nat
  | [], acc, prevDigit => if prevDigit then some acc else none
  | c :: cs, acc, prevDigit =>
    if c.isDigit then pyDigitsAux cs (10 * acc + (c.toNat - 48)) true
    else if c = '_' then
      if prevDigit then pyDigitsAux cs acc false else none
    else none

/-- Python `int(s)` on the pieces of a Range specification; `none` models
a `ValueError`.  This is exact for the strings that can occur there:
header values reach Flask decoded as latin-1 (the WSGI convention), so
pieces contain only code points ≤ 0xFF, and on those `int()` accepts
exactly surrounding `pyIntWs` whitespace, one optional sign, and ASCII
digits with single separating underscores — no other latin-1 character is
a Unicode decimal digit.  A minus sign cannot occur in these pieces (they
are the fragments of `range_spec.split("-")`), so the model maps a piece
with a leading `'-'` — which bare `int()` would read as a negative sign —
to `none` like any other character it cannot reach. -/
def pyIntParse (s : List Char) : Option Nat :=
  pyDigitsAux
    (if (pyStrip s).head? = some '+' then (pyStrip s).tail else pyStrip s) 0 false

/-- Base-10 rendering, fuelled so that it is structurally recursive (the
fuel strictly bounds the value, which shrinks by a factor 10 each step, so
`value + 1` fuel always suffices). -/
def natDigitsAux : Nat → Nat → List Char
  | 0, _ => []
  | fuel + 1, n =>
    if n < 10 then [Char.ofNat (48 + n)]
    else natDigitsAux fuel (n / 10) ++ [Char.ofNat (48 + n % 10)]

/-- Base-10 rendering of a natural number (what `str(n)` / an f-string
produces for a non-negative Python int). -/
def natDigits (n : Nat) : List Char := natDigitsAux (n + 1) n

/-- Rendering of a Python int, negative values included (`str(i)`). -/
def intRender (i : Int) : List Char :=
  if i < 0 then '-' :: natDigits i.natAbs else natDigits i.toNat

/-- Result of one call of the streaming endpoint: a built `Response`
(status, body bytes, response headers in insertion order), a Flask
`abort(code)`, or an uncaught Python exception propagating out. -/
inductive StreamResult where
  | ok (status : Nat) (body : List Nat) (headers : List (String × List Char))
  | httpAbort (code : Nat)
  | pyValueError
deriving DecidableEq, Repr

/-- The chunked generator of `range_request_response` (streaming.py lines
74-84): starting with `remaining = rem` bytes wanted and the file handle
seeked to `pos`, repeatedly `read(min(8192, remaining))`; an empty read
(end of file) stops the loop.  Returns the concatenation of the yielded
chunks. -/
def readChunksAux (file : List Nat) : Nat → Nat → Nat → List Nat
  | 0, _, _ => []
  | fuel + 1, pos, rem =>
    if rem = 0 then []
    else
      let chunk := (file.drop pos).take (min 8192 rem)
      if chunk = [] then []
      else chunk ++ readChunksAux file fuel (pos + chunk.length) (rem - chunk.length)

/-- Entry point of the generator: every iteration with a non-empty chunk
consumes at least one byte of `remaining`, so `rem` itself bounds the
number of iterations and serves as fuel. -/
def readChunks (file : List Nat) (pos rem : Nat) : List Nat :=
  readChunksAux file rem pos rem

/-- The 200 full-file response (streaming.py lines 97-113): body produced
by `generate_full`, which reads 8192-byte chunks to end of file, i.e. the
whole file. -/
def fullFileResponse (file : List Nat) : StreamResult :=
  .ok 200 file
    [("Content-Length", natDigits file.length),
     ("Accept-Ranges", "bytes".toList)]

/-- streaming.py lines 68-95: serving a parsed byte range.  `start` is the
parsed (non-negative) start, `endReq` the parsed end (an `Int`: when the
end is omitted Python uses `file_size - 1`, which is `-1` on an empty
file).  `abort(416)` when `start >= file_size`; otherwise the end is
clamped, `length = end - start + 1` (possibly non-positive, in which case
the generator yields nothing), and a 206 response is built with
Content-Range, Accept-Ranges and Content-Length headers in that order. -/
def serveRange (file : List Nat) (start : Nat) (endReq : Int) : StreamResult :=
  let file_size := file.length
  if (file_size : Int) ≤ (start : Int) then .httpAbort 416
  else
    let endv : Int := min endReq ((file_size : Int) - 1)
    let length : Int := endv - (start : Int) + 1
    let body := if length ≤ 0 then [] else readChunks file start length.toNat
    .ok 206 body
      [("Content-Range",
         "bytes ".toList ++ natDigits start ++ ['-'] ++ intRender endv
           ++ ['/'] ++ natDigits file_size),
       ("Accept-Ranges", "bytes".toList),
       ("Content-Length", intRender length)]

/-- `range_request_response(video_path, content_type, quality=None)` on an
existing file (streaming.py lines 46-113), as a function of the file's
bytes and the request's Range header (`none` when absent).  Mirrors the
source line by line:
  * `if range_header:` — absent or empty header gives the full 200 response;
  * `range_header.split("=")` must give exactly two pieces, else the
    `ValueError` is caught and `abort(416)`;
  * the unit must be exactly `"bytes"`, else `abort(416)`;
  * `range_spec.split("-")` is unpacked into exactly two pieces; any other
    shape raises an uncaught `ValueError` (the source has this unpack
    outside its try block);
  * an empty start string means 0, an empty end string means
    `file_size - 1`; non-empty pieces go through `int`, a failure of
    either is caught and `abort(416)`;
  * the parsed range is then served by `serveRange`. -/
def range_request_response (file : List Nat) (rangeHeader : Option (List Char)) :
    StreamResult :=
  match rangeHeader with
  | none => fullFileResponse file
  | some h =>
    if h = [] then fullFileResponse file
    else
      match splitOnChar '=' h with
      | [bytes_unit, range_spec] =>
        if bytes_unit ≠ "bytes".toList then .httpAbort 416
        else
          match splitOnChar '-' range_spec with
          | [start_str, end_str] =>
            match (if start_str = [] then some 0 else pyIntParse start_str),
                  (if end_str = [] then some ((file.length : Int) - 1)
                   else (pyIntParse end_str).map Int.ofNat) with
            | some s, some e => serveRange file s e
            | _, _ => .httpAbort 416
          | _ => .pyValueError
      | _ => .httpAbort 416

/-- The Range header string `bytes=<ds>-<de>`. -/
def mkRangeHeader (ds de : List Char) : List Char :=
  "bytes".toList ++ '=' :: ds ++ '-' :: de

/-- Status code of a built (non-abort) response, `none` for aborts and
uncaught exceptions. -/
def StreamResult.okStatus : StreamResult → Option Nat
  | .ok st _ _ => some st
  | _ => none

/-! ## Transcode pipeline -/

/-- streaming.py lines 273-325, `_build_ffmpeg_transcode_cmd`: the ffmpeg
argument list for transcoding `video_path` to at most `target_height`,
H.264 + AAC fragmented MP4 on stdout.  The backend string selects the
encoder and the matching hardware-acceleration arguments; anything other
than nvidia/intel/amd gets the CPU defaults. -/
def _build_ffmpeg_transcode_cmd (video_path : String) (target_height : Nat)
    (backend : String) : List String :=
  let scale_filter := "scale=-2:min(ih," ++ toString target_height ++ ")"
  let vcodec :=
    if backend = "nvidia" then "h264_nvenc"
    else if backend = "intel" then "h264_qsv"
    else if backend = "amd" then "h264_vaapi"
    else "libx264"
  let hwaccel_args :=
    if backend = "nvidia" then ["-hwaccel", "cuda"]
    else if backend = "intel" then ["-hwaccel", "qsv"]
    else if backend = "amd" then ["-hwaccel", "vaapi"]
    else []
  ["ffmpeg", "-hide_banner", "-loglevel", "error"] ++ hwaccel_args ++
    ["-i", video_path, "-vf", scale_filter, "-c:v", vcodec, "-preset", "fast",
     "-c:a", "aac", "-b:a", "128k", "-ac", "2", "-movflags",
     "frag_keyframe+empty_moov", "-f", "mp4", "-"]

/-- Denotation of the ffmpeg scale filter `scale=-2:h` with height
expression `min(ih,T)`: ffmpeg evaluates the expression with `ih` bound to
the input height, so the output height is `min(ih, T)`; the `-2` width
preserves aspect ratio and rounds to an even width.  (ffmpeg is an
external collaborator of the repository; this captures the filter's
documented meaning.) -/
def scaleExprHeight (sourceHeight targetHeight : Nat) : Nat :=
  min sourceHeight targetHeight

/-- Outcome of `_transcoded_stream_response`: a 200 chunked stream fed by
the encoder process spawned with `cmd`, or the raw Range Streamer response
on the original file. -/
inductive TranscodeResult where
  | stream (cmd : List String)
  | raw (r : StreamResult)
deriving DecidableEq, Repr

/-- streaming.py lines 328-361, `_transcoded_stream_response`.  Spawning
the encoder (`start_process`) is modelled by the oracle `spawnOk` saying
whether `subprocess.Popen` succeeds for a given argument list.  Returns
the outcome together with the argument lists passed to `start_process`,
in call order:
  * first attempt with the configured backend's command;
  * if it fails and the backend is not cpu, exactly one retry with the
    cpu command;
  * if no process started, fall back to
    `range_request_response(video_path, guess_mime_type(video_path), quality=None)`
    on the original file (the request's Range header still applies). -/
def _transcoded_stream_response (spawnOk : List String → Bool) (file : List Nat)
    (rangeHeader : Option (List Char)) (video_path : String) (target_height : Nat)
    (backend : String) : TranscodeResult × List (List String) :=
  let cmd := _build_ffmpeg_transcode_cmd video_path target_height backend
  if spawnOk cmd then (.stream cmd, [cmd])
  else
    if backend ≠ "cpu" then
      let cpu_cmd := _build_ffmpeg_transcode_cmd video_path target_height "cpu"
      if spawnOk cpu_cmd then (.stream cpu_cmd, [cmd, cpu_cmd])
      else (.raw (range_request_response file rangeHeader), [cmd, cpu_cmd])
    else (.raw (range_request_response file rangeHeader), [cmd])

/-! ## Torrent job (torrent_downloader.py)

The mutable fields of a `TorrentJob` (torrent_downloader.py lines 49-63).
The job's constants (`id`, `magnet_uri`, `dest_dir`, `temp_dir`,
`video_exts`) are never reassigned and are kept outside this record.
Python floats are modelled as `ℚ`, `datetime` values as `Nat` timestamps
(ISO-8601 rendering is injective, so snapshot equality is unaffected). -/
structure JobState where
  name : Option String
  status : String
  error : Option String
  progress : ℚ
  download_rate : Int
  upload_rate : Int
  elapsed_seconds : ℚ
  eta_seconds : Option ℚ
  created_at : Nat
  started_at : Option Nat
  completed_at : Option Nat
  cancel_requested : Bool
deriving DecidableEq, Repr

/-- One `handle.status()` snapshot from libtorrent (an external
collaborator): the fields the worker loop reads. -/
structure LtStatus where
  progress : ℚ
  download_rate : Int
  upload_rate : Int
  total_wanted : Int
  total_wanted_done : Int
  is_seeding : Bool
  state_seeding : Bool
deriving DecidableEq, Repr

/-- Environment of one worker run: everything the thread observes from
outside the job object.  `statusAt i` is `handle.status()` at loop
iteration `i` (`none` models the call raising); `nameAt i` the torrent
name, `none` when `get_torrent_info` raises (caught and ignored);
`cancelTop i` is the `_cancel_requested` flag as read at the loop top of
iteration `i`, and `cancelFinal` the same flag as re-read at the
post-loop check (line 197) — the flag is only ever set, never cleared, so
in any real schedule `cancelTop i = true` forces `cancelFinal = true`.
`processRaises` says whether `_process_files` raises. -/
structure WorkerEnv where
  ltAvailable : Bool
  statusAt : Nat → Option LtStatus
  nameAt : Nat → Option String
  elapsedAt : Nat → ℚ
  cancelTop : Nat → Bool
  cancelFinal : Bool
  processRaises : Bool
  startedTime : Nat
  completedTime : Nat
  createdTime : Nat
  errMsg : Nat → String
  processErrMsg : String

/-- `round(x, 1)` on the progress percentage.  (CPython rounds floats
half-to-even; Mathlib's `round` is half-up.  They agree except at exact
ties, and the claims below only compare snapshots for equality, which any
fixed deterministic rounding preserves.) -/
def pyRound1 (q : ℚ) : ℚ := (round (q * 10) : ℤ) / 10

/-- Python `int(x)` on a float/Rat: truncation toward zero. -/
def pyTrunc (q : ℚ) : Int := if q < 0 then -(⌊-q⌋) else ⌊q⌋

/-- The snapshot built by `TorrentJob.to_dict` (lines 87-105), minus the
per-job constants `id` and `magnet` (immutable, equal in any two snapshots
of the same job). -/
structure JobDict where
  name : String
  status : String
  error : Option String
  progress : ℚ
  download_rate : Int
  upload_rate : Int
  elapsed_seconds : Int
  eta_seconds : Option Int
  created_at : Nat
  started_at : Option Nat
  completed_at : Option Nat
deriving DecidableEq, Repr

/-- `TorrentJob.to_dict`: note it reads every observable field but NOT the
internal `_cancel_requested` flag. -/
def TorrentJob_to_dict (j : JobState) : JobDict :=
  { name := j.name.getD ""
    status := j.status
    error := j.error
    progress := pyRound1 (j.progress * 100)
    download_rate := j.download_rate
    upload_rate := j.upload_rate
    elapsed_seconds := pyTrunc j.elapsed_seconds
    eta_seconds := j.eta_seconds.map pyTrunc
    created_at := j.created_at
    started_at := j.started_at
    completed_at := j.completed_at }

/-- `TorrentJob.cancel` (lines 71-72): sets the internal flag, nothing
else. -/
def TorrentJob_cancel (j : JobState) : JobState :=
  { j with cancel_requested := true }

def isTerminal (st : String) : Bool :=
  st == "completed" || st == "error" || st == "cancelled"

/-- Python truthiness of `self.name` in `if not self.name:` — `None` and
the empty string are falsy. -/
def nameFalsy : Option String → Bool
  | none => true
  | some s => s == ""

/-- The job state right after `__init__` (lines 42-63). -/
def initJobState (env : WorkerEnv) : JobState :=
  { name := none, status := "queued", error := none, progress := 0,
    download_rate := 0, upload_rate := 0, elapsed_seconds := 0,
    eta_seconds := none, created_at := env.createdTime, started_at := none,
    completed_at := none, cancel_requested := false }

/-- The worker state at the loop entry: status `downloading` and
`started_at` recorded (lines 146-147). -/
def startDownloading (env : WorkerEnv) : JobState :=
  { initJobState env with status := "downloading", started_at := some env.startedTime }

/-- The field writes of one loop-body iteration (lines 160-185), in source
order, given the status snapshot `s`: the optional name write, then
progress, download_rate, upload_rate, elapsed_seconds, eta_seconds.
Returns the list of intermediate states (one per field write — each is a
point where a concurrent `to_dict` could observe the object) and the
state after the iteration. -/
def loopStep (env : WorkerEnv) (σ : JobState) (i : Nat) (s : LtStatus) :
    List JobState × JobState :=
  let (l1, σ1) :=
    if nameFalsy σ.name then
      (match env.nameAt i with
       | some nm => ([{ σ with name := some nm }], { σ with name := some nm })
       | none => ([], σ))
    else ([], σ)
  let σ2 := { σ1 with progress := s.progress }
  let σ3 := { σ2 with download_rate := s.download_rate }
  let σ4 := { σ3 with upload_rate := s.upload_rate }
  let σ5 := { σ4 with elapsed_seconds := env.elapsedAt i }
  let remaining := max 0 (s.total_wanted - s.total_wanted_done)
  let etaVal : Option ℚ :=
    if s.download_rate > 0 ∧ remaining > 0 then
      some ((remaining : ℚ) / (s.download_rate : ℚ))
    else none
  let σ6 := { σ5 with eta_seconds := etaVal }
  (l1 ++ [σ2, σ3, σ4, σ5, σ6], σ6)

/-- How the main download loop (lines 159-185) ended. -/
inductive LoopOutcome where
  | fuelOut (σ : JobState)
  | cancelExit (σ : JobState)
  | seeded (σ : JobState)
  | raised (σ : JobState) (i : Nat)
deriving DecidableEq, Repr

/-- The `while not self._cancel_requested:` loop, fuelled (the real loop
can run unboundedly; claims about its end carry the hypothesis that the
exit happens within the fuel).  At the top of iteration `i` the flag read
is `env.cancelTop i`; then `handle.status()` (which may raise), the body's
writes, and the seeding check that breaks the loop. -/
def runLoop (env : WorkerEnv) : Nat → JobState → Nat → List JobState × LoopOutcome
  | 0, σ, _ => ([], .fuelOut σ)
  | fuel + 1, σ, i =>
    if env.cancelTop i then ([], .cancelExit σ)
    else
      match env.statusAt i with
      | none => ([], .raised σ i)
      | some s =>
        let p := loopStep env σ i s
        if s.is_seeding || s.state_seeding then (p.1, .seeded p.2)
        else
          let rest := runLoop env fuel p.2 (i + 1)
          (p.1 ++ rest.1, rest.2)

/-- Result of one worker run: the sequence of observable job states (the
state after `__init__`, then the state after every later field write) and
whether the temp-tree removal and the manager notification happened. -/
structure WorkerRun where
  trace : List JobState
  cleanupTemp : Bool
  notified : Bool
deriving DecidableEq, Repr

/-- The state a loop outcome carries. -/
def LoopOutcome.st : LoopOutcome → JobState
  | .fuelOut σ => σ
  | .cancelExit σ => σ
  | .seeded σ => σ
  | .raised σ _ => σ

/-- The post-loop part of the worker (lines 187-208 plus `_run`'s except
and finally blocks): the states written after the loop exits, whether the
temp tree is removed, and whether the manager is notified. -/
def terminalTail (env : WorkerEnv) : LoopOutcome → List JobState × Bool × Bool
  | .fuelOut _ => ([], false, false)
  | .cancelExit σ => ([{ σ with status := "cancelled" }], true, true)
  | .raised σ i =>
    ([{ σ with status := "error" },
      { σ with status := "error", error := some ("Unexpected error: " ++ env.errMsg i) }],
     true, true)
  | .seeded σ =>
    if env.cancelFinal then ([{ σ with status := "cancelled" }], true, true)
    else
      if env.processRaises then
        ([{ σ with status := "processing" },
          { σ with status := "error" },
          { σ with status := "error", error := some ("Unexpected error: " ++ env.processErrMsg) }],
         true, true)
      else
        ([{ σ with status := "processing" },
          { σ with status := "completed" },
          { σ with status := "completed", progress := 1 },
          { σ with status := "completed", progress := 1, completed_at := some env.completedTime }],
         true, true)

/-- `TorrentJob._run` + `_run_libtorrent` (lines 120-208), as a state
trace.  The branches:
  * libtorrent missing: `status = "error"` then `error = ...`, notify;
  * cancel observed at the loop top (or at the re-check after a seeding
    break, `cancelFinal`): `status = "cancelled"`, temp cleanup, notify;
  * `handle.status()` raised: caught by `_run`, `status = "error"` then
    `error = "Unexpected error: ..."`, temp cleanup, notify;
  * completion: `status = "processing"`, `_process_files` (which may
    raise, giving the error path), then `status = "completed"`, then
    `progress = 1.0`, then `completed_at = utcnow()` — note these two
    writes land AFTER the status turns terminal;
  * fuel out: the job is still mid-download, nothing terminal yet.
The cancel flag of the job object is only read through `env`; the worker
itself never writes it. -/
def TorrentJob_run (env : WorkerEnv) (fuel : Nat) : WorkerRun :=
  let σ0 := initJobState env
  if env.ltAvailable then
    let σ1 := { σ0 with status := "downloading" }
    let σ2 := { σ1 with started_at := some env.startedTime }
    let r := runLoop env fuel σ2 0
    let t := terminalTail env r.2
    { trace := [σ0, σ1, σ2] ++ r.1 ++ t.1, cleanupTemp := t.2.1,
      notified := t.2.2 }
  else
    let σ1 := { σ0 with status := "error" }
    let σ2 := { σ1 with error := some "python-libtorrent is not installed." }
    { trace := [σ0, σ1, σ2], cleanupTemp := false, notified := true }

/-- Fields that must be frozen from a terminal-status state on: everything
except `progress`, `error` and `completed_at` (see the amended C3). -/
def frozenAgree (a b : JobState) : Prop :=
  b.status = a.status ∧ b.name = a.name ∧ b.download_rate = a.download_rate ∧
  b.upload_rate = a.upload_rate ∧ b.elapsed_seconds = a.elapsed_seconds ∧
  b.eta_seconds = a.eta_seconds ∧ b.created_at = a.created_at ∧
  b.started_at = a.started_at ∧ b.cancel_requested = a.cancel_requested

instance : DecidablePred (fun p : JobState × JobState => frozenAgree p.1 p.2) :=
  fun p => by unfold frozenAgree; infer_instance

/-- A concrete environment whose transfer is already seeding at the first
poll: the run completes immediately. -/
def envSeedNow : WorkerEnv :=
  { ltAvailable := true
    statusAt := fun _ => some
      { progress := 1, download_rate := 0, upload_rate := 0,
        total_wanted := 100, total_wanted_done := 100,
        is_seeding := true, state_seeding := true }
    nameAt := fun _ => some "movie"
    elapsedAt := fun _ => 1
    cancelTop := fun _ => false
    cancelFinal := false
    processRaises := false
    startedTime := 10
    completedTime := 20
    createdTime := 5
    errMsg := fun _ => ""
    processErrMsg := "" }

/-- A concrete environment in which `cancel()` lands between the first and
second poll: the flag reads false at iteration 0 and true from iteration 1
on; the transfer never reaches seeding. -/
def envCancelAt1 : WorkerEnv :=
  { ltAvailable := true
    statusAt := fun _ => some
      { progress := 1/2, download_rate := 100, upload_rate := 3,
        total_wanted := 1000, total_wanted_done := 500,
        is_seeding := false, state_seeding := false }
    nameAt := fun _ => none
    elapsedAt := fun i => i
    cancelTop := fun i => decide (1 ≤ i)
    cancelFinal := true
    processRaises := false
    startedTime := 10
    completedTime := 20
    createdTime := 5
    errMsg := fun _ => ""
    processErrMsg := "" }

/-- A terminal job state, for instantiating claims about terminal jobs. -/
def sampleTerminalJob : JobState :=
  { name := some "movie", status := "completed", error := none, progress := 1,
    download_rate := 0, upload_rate := 0, elapsed_seconds := 9,
    eta_seconds := none, created_at := 5, started_at := some 10,
    completed_at := some 20, cancel_requested := false }

/-! ## File processing after a completed download
(`TorrentJob._process_files`, lines 210-240) -/

/-- `os.path.splitext`: split off the extension at the last dot, except
that leading dots of the name never start an extension
(`splitext(".bashrc") == (".bashrc", "")`). -/
def splitext (s : List Char) : List Char × List Char :=
  let leading := s.takeWhile (fun c => c == '.')
  let rest := s.drop leading.length
  if rest.contains '.' then
    let extLen := (rest.reverse.takeWhile (fun c => !(c == '.'))).length + 1
    (s.take (s.length - extLen), s.drop (s.length - extLen))
  else (s, [])

/-- `ext.lower().lstrip(".")`. -/
def normalizeExt (e : List Char) : List Char :=
  (e.map Char.toLower).dropWhile (fun c => c == '.')

/-- The constructor's normalization of the allow-list (line 46):
`{e.lower().lstrip(".") for e in video_exts if e.strip()}`. -/
def normalizeExts (exts : List (List Char)) : List (List Char) :=
  (exts.filter (fun e => e.any (fun c => !c.isWhitespace))).map normalizeExt

/-- Lines 219-221: a file is moved (rather than deleted) iff its
normalized extension is in the job's allow-list. -/
def isAllowedFile (exts : List (List Char)) (fname : List Char) : Bool :=
  decide (normalizeExt (splitext fname).2 ∈ exts)

/-- The collision name `f"{base}_{counter}{ext_full}"` (line 229). -/
def variantName (base ext : List Char) (k : Nat) : List Char :=
  base ++ '_' :: (natDigits k ++ ext)

/-- The `while os.path.exists(dest_path)` search (lines 227-231), fuelled:
each iteration either returns a free name or increments the counter, and
`dest.length + 1` candidate names cannot all collide (the variant names
are pairwise distinct), so that much fuel always suffices. -/
def findFreeAux (dest : List (List Char)) (base ext : List Char) :
    Nat → Nat → List Char
  | 0, k => variantName base ext k
  | fuel + 1, k =>
    if variantName base ext k ∈ dest then findFreeAux dest base ext fuel (k + 1)
    else variantName base ext k

/-- Lines 222-231: the destination name chosen for `fname` against the
current contents of `dest_dir` — the original name if free, else the
first free numeric-suffix variant `base_1.ext, base_2.ext, ...`. -/
def resolveCollision (dest : List (List Char)) (fname : List Char) : List Char :=
  if fname ∈ dest then
    findFreeAux dest (splitext fname).1 (splitext fname).2 (dest.length + 1) 1
  else fname

/-- The walk over the temp tree (lines 216-238), flattened to the list of
file names in walk order (moves go flat into `dest_dir`, so directory
structure inside the temp tree does not affect name resolution): allowed
files are moved into the destination under their resolved name, every
other file is deleted.  State: (destination contents, deleted files). -/
def processFilesAux (exts : List (List Char)) :
    List (List Char) → List (List Char) → List (List Char) →
      List (List Char) × List (List Char)
  | [], dest, deleted => (dest, deleted)
  | f :: fs, dest, deleted =>
    if isAllowedFile exts f then
      processFilesAux exts fs (dest ++ [resolveCollision dest f]) deleted
    else processFilesAux exts fs dest (deleted ++ [f])

/-- Outcome of `_process_files`: final destination contents, the deleted
files, and whether the temp tree was removed (`_cleanup_temp`, line
240). -/
structure ProcessResult where
  dest : List (List Char)
  deleted : List (List Char)
  tempRemoved : Bool
deriving DecidableEq, Repr

/-- `TorrentJob._process_files` over the walk's file list and the initial
destination-directory contents. -/
def _process_files (exts tempFiles dest0 : List (List Char)) : ProcessResult :=
  { dest := (processFilesAux exts tempFiles dest0 []).1,
    deleted := (processFilesAux exts tempFiles dest0 []).2,
    tempRemoved := true }

/-! ## Torrent manager (`TorrentManager`, lines 250-309) -/

/-- The per-job constants `delete_job` touches. -/
structure MJob where
  id : String
  temp_dir : String
  dest_dir : String
deriving DecidableEq, Repr

/-- The manager's registry `self._jobs` (keys unique); all mutation
happens under `self._lock`. -/
structure ManagerState where
  jobs : List (String × MJob)
deriving DecidableEq, Repr

/-- Externally visible actions of `delete_job`: `job.cancel()`,
`job.join(timeout=1.0)` (a bounded wait), and `job.force_cleanup()` —
which removes only `job.temp_dir` (lines 77-85). -/
inductive MEffect where
  | cancelRequested (id : String)
  | joinedBounded (id : String) (timeoutSeconds : ℚ)
  | removedDir (dir : String)
deriving DecidableEq, Repr

/-- `TorrentManager.list_jobs` returns `to_dict` snapshots of every
registered job; for membership claims the ids suffice. -/
def list_jobs_ids (st : ManagerState) : List String :=
  st.jobs.map (fun p => p.1)

/-- `TorrentManager.delete_job` (lines 289-302): `self._jobs.pop(job_id,
None)` under the lock; `None` → return `False` with nothing else done;
otherwise cancel, bounded join, force-cleanup of the temp dir, return
`True`. -/
def delete_job (st : ManagerState) (jid : String) :
    Bool × ManagerState × List MEffect :=
  match (st.jobs.lookup jid : Option MJob) with
  | none => (false, st, [])
  | some job =>
    (true, ⟨st.jobs.filter (fun p => p.1 != jid)⟩,
     [.cancelRequested jid, .joinedBounded jid 1, .removedDir job.temp_dir])

/-- A tiny concrete registry. -/
def sampleMJob : MJob :=
  { id := "a", temp_dir := "/tmp/torrents/a", dest_dir := "/library" }

def sampleManager : ManagerState := { jobs := [("a", sampleMJob)] }

/-! ## Lemmas about the helpers -/

theorem take_len_take {α : Type} (l : List α) (m : Nat) :
    l.take ((l.take m).length) = l.take m := by
  rcases Nat.le_total m l.length with h | h
  · rw [List.length_take, Nat.min_eq_left h]
  · rw [List.length_take, Nat.min_eq_right h, List.take_length,
      List.take_of_length_le h]

theorem take_ne_nil {α : Type} {l : List α} {n : Nat} (hn : n ≠ 0) (hl : l ≠ []) :
    l.take n ≠ [] := by
  cases l with
  | nil => exact absurd rfl hl
  | cons a as =>
    cases n with
    | zero => exact absurd rfl hn
    | succ n => simp [List.take]

/-- The chunked generator returns exactly the `rem`-byte slice starting at
`pos` (truncated at end of file), as long as the fuel covers `rem`. -/
theorem readChunksAux_eq (file : List Nat) :
    ∀ fuel pos rem, rem ≤ fuel →
      readChunksAux file fuel pos rem = (file.drop pos).take rem := by
  intro fuel
  induction fuel with
  | zero =>
    intro pos rem h
    have : rem = 0 := by omega
    simp [readChunksAux, this]
  | succ fuel ih =>
    intro pos rem h
    by_cases h0 : rem = 0
    · simp [readChunksAux, h0]
    · by_cases h2 : (file.drop pos).take (min 8192 rem) = []
      · have hm : min 8192 rem ≠ 0 := by omega
        have hl : file.drop pos = [] := by
          by_contra hne
          exact take_ne_nil hm hne h2
        simp [readChunksAux, h0, h2, hl]
      · have hcl : 0 < ((file.drop pos).take (min 8192 rem)).length :=
          List.length_pos.mpr h2
        have hclm : ((file.drop pos).take (min 8192 rem)).length ≤ min 8192 rem :=
          List.length_take_le _ _
        have hcr : ((file.drop pos).take (min 8192 rem)).length ≤ rem :=
          le_trans hclm (Nat.min_le_right _ _)
        rw [readChunksAux]
        simp only [if_neg h0, if_neg h2]
        rw [ih _ _ (by omega)]
        have hdd : file.drop (pos + ((file.drop pos).take (min 8192 rem)).length)
            = (file.drop pos).drop ((file.drop pos).take (min 8192 rem)).length := by
          rw [List.drop_drop, Nat.add_comm]
        rw [hdd]
        conv_rhs =>
          rw [show rem = ((file.drop pos).take (min 8192 rem)).length
                + (rem - ((file.drop pos).take (min 8192 rem)).length) by omega,
            List.take_add, take_len_take]

theorem readChunks_eq (file : List Nat) (pos rem : Nat) :
    readChunks file pos rem = (file.drop pos).take rem :=
  readChunksAux_eq file rem pos rem le_rfl

theorem splitOnChar_of_not_mem {c : Char} :
    ∀ {l : List Char}, c ∉ l → splitOnChar c l = [l]
  | [], _ => rfl
  | x :: xs, h => by
    have hx : ¬ x = c := fun e => h (e ▸ List.mem_cons_self x xs)
    have ih := splitOnChar_of_not_mem
      (fun hm : c ∈ xs => h (List.mem_cons_of_mem x hm))
    rw [splitOnChar, if_neg hx, ih]

theorem splitOnChar_append (c : Char) :
    ∀ (a b : List Char), c ∉ a →
      splitOnChar c (a ++ c :: b) = a :: splitOnChar c b
  | [], b, _ => by rw [List.nil_append, splitOnChar, if_pos rfl]
  | x :: xs, b, h => by
    have hx : ¬ x = c := fun e => h (e ▸ List.mem_cons_self x xs)
    have ih := splitOnChar_append c xs b (fun hm => h (List.mem_cons_of_mem x hm))
    rw [List.cons_append, splitOnChar, if_neg hx, ih]

theorem pyDigitsAux_chars :
    ∀ (cs : List Char) (acc : Nat) (b : Bool) (n : Nat),
      pyDigitsAux cs acc b = some n → ∀ c ∈ cs, c.isDigit = true ∨ c = '_' := by
  intro cs
  induction cs with
  | nil => intro acc b n _ c hc; exact absurd hc (List.not_mem_nil c)
  | cons a cs ih =>
    intro acc b n h c hc
    rw [pyDigitsAux] at h
    by_cases ha : a.isDigit = true
    · rw [if_pos ha] at h
      rcases List.mem_cons.mp hc with rfl | hc
      · exact Or.inl ha
      · exact ih _ _ _ h c hc
    · rw [if_neg ha] at h
      by_cases ha2 : a = '_'
      · rw [if_pos ha2] at h
        cases b with
        | false => exact absurd h (by simp)
        | true =>
          rcases List.mem_cons.mp hc with rfl | hc
          · exact Or.inr ha2
          · exact ih _ _ _ h c hc
      · rw [if_neg ha2] at h
        exact absurd h (by simp)

theorem mem_takeWhile_pred {p : Char → Bool} :
    ∀ {l : List Char} {c : Char}, c ∈ l.takeWhile p → p c = true := by
  intro l
  induction l with
  | nil => intro c h; exact absurd h (List.not_mem_nil c)
  | cons a l ih =>
    intro c h
    rw [List.takeWhile_cons] at h
    by_cases hpa : p a = true
    · rw [if_pos hpa] at h
      rcases List.mem_cons.mp h with rfl | h
      · exact hpa
      · exact ih h
    · rw [if_neg hpa] at h
      exact absurd h (List.not_mem_nil c)

/-- A string decomposes as whitespace, its stripped core, whitespace. -/
theorem pyStrip_decomp (s : List Char) :
    ∃ a b, s = a ++ pyStrip s ++ b ∧
      (∀ c ∈ a, pyIntWs c = true) ∧ (∀ c ∈ b, pyIntWs c = true) := by
  refine ⟨s.takeWhile pyIntWs,
    ((s.dropWhile pyIntWs).reverse.takeWhile pyIntWs).reverse, ?_, ?_, ?_⟩
  · have h1 : s = s.takeWhile pyIntWs ++ s.dropWhile pyIntWs :=
      (List.takeWhile_append_dropWhile pyIntWs s).symm
    have h2 : s.dropWhile pyIntWs
        = pyStrip s ++ ((s.dropWhile pyIntWs).reverse.takeWhile pyIntWs).reverse := by
      have h3 := List.takeWhile_append_dropWhile pyIntWs (s.dropWhile pyIntWs).reverse
      have h4 := congrArg List.reverse h3
      rw [List.reverse_append, List.reverse_reverse] at h4
      unfold pyStrip
      exact h4.symm
    conv_lhs => rw [h1]
    rw [List.append_assoc]
    exact congrArg (fun x => s.takeWhile pyIntWs ++ x) h2
  · intro c hc
    exact mem_takeWhile_pred hc
  · intro c hc
    rw [List.mem_reverse] at hc
    exact mem_takeWhile_pred hc

/-- Every character of a piece `int()` accepts is surrounding whitespace,
a plus sign, an ASCII digit or an underscore — in particular a parsable
piece is non-empty and contains neither `'='` nor `'-'`. -/
theorem pyIntParse_chars {s : List Char} {n : Nat} (h : pyIntParse s = some n) :
    s ≠ [] ∧ ∀ c ∈ s,
      pyIntWs c = true ∨ c = '+' ∨ c.isDigit = true ∨ c = '_' := by
  constructor
  · intro he
    subst he
    exact Option.noConfusion h
  · have hcore : ∀ c ∈ pyStrip s, c = '+' ∨ c.isDigit = true ∨ c = '_' := by
      unfold pyIntParse at h
      by_cases hp : (pyStrip s).head? = some '+'
      · rw [if_pos hp] at h
        intro c hc
        rcases hps : pyStrip s with _ | ⟨c0, rest⟩
        · rw [hps] at hc
          exact absurd hc (List.not_mem_nil c)
        · rw [hps] at hp hc h
          have hc0 : c0 = '+' := by simpa using hp
          rcases List.mem_cons.mp hc with rfl | hc
          · exact Or.inl hc0
          · have h' : pyDigitsAux rest 0 false = some n := h
            rcases pyDigitsAux_chars rest 0 false n h' c hc with h1 | h1
            · exact Or.inr (Or.inl h1)
            · exact Or.inr (Or.inr h1)
      · rw [if_neg hp] at h
        intro c hc
        rcases pyDigitsAux_chars (pyStrip s) 0 false n h c hc with h1 | h1
        · exact Or.inr (Or.inl h1)
        · exact Or.inr (Or.inr h1)
    obtain ⟨a, b, hs, hma, hmb⟩ := pyStrip_decomp s
    intro c hc
    rw [hs] at hc
    rcases List.mem_append.mp hc with hc1 | hc1
    · rcases List.mem_append.mp hc1 with hc2 | hc2
      · exact Or.inl (hma c hc2)
      · rcases hcore c hc2 with h1 | h1 | h1
        · exact Or.inr (Or.inl h1)
        · exact Or.inr (Or.inr (Or.inl h1))
        · exact Or.inr (Or.inr (Or.inr h1))
    · exact Or.inl (hmb c hc1)

theorem parse_not_mem_eq {s : List Char} {n : Nat} (h : pyIntParse s = some n) :
    ('=' : Char) ∉ s := by
  intro hm
  rcases (pyIntParse_chars h).2 '=' hm with h1 | h1 | h1 | h1
  · exact absurd h1 (by decide)
  · exact absurd h1 (by decide)
  · exact absurd h1 (by decide)
  · exact absurd h1 (by decide)

theorem parse_not_mem_dash {s : List Char} {n : Nat} (h : pyIntParse s = some n) :
    ('-' : Char) ∉ s := by
  intro hm
  rcases (pyIntParse_chars h).2 '-' hm with h1 | h1 | h1 | h1
  · exact absurd h1 (by decide)
  · exact absurd h1 (by decide)
  · exact absurd h1 (by decide)
  · exact absurd h1 (by decide)

theorem intRender_natCast (n : Nat) : intRender (n : Int) = natDigits n := by
  unfold intRender
  rw [if_neg (by omega), Int.toNat_natCast]

theorem loopStep_status (env : WorkerEnv) (σ : JobState) (i : Nat) (s : LtStatus) :
    (∀ τ ∈ (loopStep env σ i s).1, τ.status = σ.status) ∧
    (loopStep env σ i s).2.status = σ.status := by
  rcases hn : env.nameAt i with _ | nm <;>
    by_cases hf : nameFalsy σ.name = true <;>
      simp [loopStep, hn, hf]

theorem runLoop_status (env : WorkerEnv) :
    ∀ (fuel : Nat) (σ : JobState) (i : Nat),
      (∀ τ ∈ (runLoop env fuel σ i).1, τ.status = σ.status) ∧
      (runLoop env fuel σ i).2.st.status = σ.status := by
  intro fuel
  induction fuel with
  | zero => intro σ i; simp [runLoop, LoopOutcome.st]
  | succ fuel ih =>
    intro σ i
    by_cases hc : env.cancelTop i = true
    · simp [runLoop, hc, LoopOutcome.st]
    · rcases hs : env.statusAt i with _ | s
      · simp [runLoop, hc, hs, LoopOutcome.st]
      · have hls := loopStep_status env σ i s
        by_cases hseed : (s.is_seeding || s.state_seeding) = true
        · simp only [runLoop, if_neg hc, hs, hseed, if_pos rfl, LoopOutcome.st]
          exact ⟨hls.1, hls.2⟩
        · have hrec := ih (loopStep env σ i s).2 (i + 1)
          simp only [runLoop, if_neg hc, hs, hseed, Bool.false_eq_true, if_false]
          constructor
          · intro τ hτ
            rcases List.mem_append.mp hτ with h | h
            · exact hls.1 τ h
            · exact (hrec.1 τ h).trans hls.2
          · exact hrec.2.trans hls.2

theorem pairwise_append_nonterminal {l tail : List JobState}
    (h : ∀ τ ∈ l, isTerminal τ.status = false)
    (htail : List.Pairwise (fun a b => isTerminal a.status = true → frozenAgree a b) tail) :
    List.Pairwise (fun a b => isTerminal a.status = true → frozenAgree a b) (l ++ tail) := by
  induction l with
  | nil => simpa
  | cons a l ih =>
    rw [List.cons_append, List.pairwise_cons]
    refine ⟨?_, ih (fun τ hτ => h τ (List.mem_cons_of_mem a hτ))⟩
    intro b _ ht
    rw [h a (List.mem_cons_self a l)] at ht
    exact absurd ht (by simp)

theorem terminalTail_pairwise (env : WorkerEnv) (out : LoopOutcome) :
    List.Pairwise (fun a b => isTerminal a.status = true → frozenAgree a b)
      (terminalTail env out).1 := by
  rcases out with σ | σ | σ | ⟨σ, i⟩
  · exact List.Pairwise.nil
  · exact List.pairwise_singleton _ _
  · by_cases hcf : env.cancelFinal = true
    · simp only [terminalTail, if_pos hcf]
      exact List.pairwise_singleton _ _
    · by_cases hpr : env.processRaises = true
      · simp only [terminalTail, if_neg hcf, if_pos hpr]
        refine List.Pairwise.cons ?_ (List.Pairwise.cons ?_ (List.pairwise_singleton _ _))
        · intro b _ ht
          dsimp only at ht
          exact absurd ht (by decide)
        · intro b hb ht
          rw [List.mem_singleton.mp hb]
          exact ⟨rfl, rfl, rfl, rfl, rfl, rfl, rfl, rfl, rfl⟩
      · simp only [terminalTail, if_neg hcf, if_neg hpr]
        refine List.Pairwise.cons ?_ (List.Pairwise.cons ?_
          (List.Pairwise.cons ?_ (List.pairwise_singleton _ _)))
        · intro b _ ht
          dsimp only at ht
          exact absurd ht (by decide)
        · intro b hb _
          rcases List.mem_cons.mp hb with hb | hb
          · rw [hb]
            exact ⟨rfl, rfl, rfl, rfl, rfl, rfl, rfl, rfl, rfl⟩
          · rw [List.mem_singleton.mp hb]
            exact ⟨rfl, rfl, rfl, rfl, rfl, rfl, rfl, rfl, rfl⟩
        · intro b hb _
          rw [List.mem_singleton.mp hb]
          exact ⟨rfl, rfl, rfl, rfl, rfl, rfl, rfl, rfl, rfl⟩
  · refine List.Pairwise.cons ?_ (List.pairwise_singleton _ _)
    intro b hb _
    rw [List.mem_singleton.mp hb]
    exact ⟨rfl, rfl, rfl, rfl, rfl, rfl, rfl, rfl, rfl⟩

/-- A header `bytes=<ds>-<de>` with parsable digit pieces reaches
`serveRange` with the two parsed values. -/
theorem rrr_parsed (file : List Nat) (ds de : List Char) (s e : Nat)
    (hds : pyIntParse ds = some s) (hde : pyIntParse de = some e) :
    range_request_response file (some (mkRangeHeader ds de))
      = serveRange file s (e : Int) := by
  have hdne : ds ≠ [] := (pyIntParse_chars hds).1
  have hene : de ≠ [] := (pyIntParse_chars hde).1
  have hne : ¬ mkRangeHeader ds de = [] := by simp [mkRangeHeader]
  have hsplit1 : splitOnChar '=' (mkRangeHeader ds de)
      = ["bytes".toList, ds ++ '-' :: de] := by
    have h1 : ('=' : Char) ∉ "bytes".toList := by decide
    have h2 : ('=' : Char) ∉ ds ++ '-' :: de := by
      intro hm
      rcases List.mem_append.mp hm with hm | hm
      · exact parse_not_mem_eq hds hm
      · rcases List.mem_cons.mp hm with hm | hm
        · exact absurd hm (by decide)
        · exact parse_not_mem_eq hde hm
    have : mkRangeHeader ds de = "bytes".toList ++ '=' :: (ds ++ '-' :: de) := rfl
    rw [this, splitOnChar_append _ _ _ h1, splitOnChar_of_not_mem h2]
  have hsplit2 : splitOnChar '-' (ds ++ '-' :: de) = [ds, de] := by
    have h1 : ('-' : Char) ∉ ds := parse_not_mem_dash hds
    have h2 : ('-' : Char) ∉ de := parse_not_mem_dash hde
    rw [splitOnChar_append _ _ _ h1, splitOnChar_of_not_mem h2]
  unfold range_request_response
  simp only [hsplit1, hsplit2, hds, hde, if_neg hne, if_neg hdne, if_neg hene,
    ne_eq, not_true_eq_false, if_false, Option.map_some]
  rfl

/-- `serveRange` when the parsed start is within the file: always a 206
response built from the clamped range. -/
theorem serveRange_inbounds (file : List Nat) (s : Nat) (e : Int)
    (hsS : s < file.length) :
    serveRange file s e =
      .ok 206
        (if min e ((file.length : Int) - 1) - (s : Int) + 1 ≤ 0 then []
         else readChunks file s (min e ((file.length : Int) - 1) - (s : Int) + 1).toNat)
        [("Content-Range",
           "bytes ".toList ++ natDigits s ++ ['-']
             ++ intRender (min e ((file.length : Int) - 1)) ++ ['/']
             ++ natDigits file.length),
         ("Accept-Ranges", "bytes".toList),
         ("Content-Length", intRender (min e ((file.length : Int) - 1) - (s : Int) + 1))] := by
  unfold serveRange
  rw [if_neg (by omega)]

/-- `serveRange` on a well-ordered in-bounds range `[s, e]`, `s ≤ e`,
`s < S`: the clamped end is `min e (S-1)` and the body is the exact byte
slice. -/
theorem serveRange_valid (file : List Nat) (s e : Nat) (hse : s ≤ e)
    (hsS : s < file.length) :
    serveRange file s (e : Int) =
      .ok 206 ((file.drop s).take (min e (file.length - 1) - s + 1))
        [("Content-Range",
           "bytes ".toList ++ natDigits s ++ ['-']
             ++ natDigits (min e (file.length - 1)) ++ ['/'] ++ natDigits file.length),
         ("Accept-Ranges", "bytes".toList),
         ("Content-Length", natDigits (min e (file.length - 1) - s + 1))] := by
  have hS1 : 1 ≤ file.length := by omega
  have hsE : s ≤ min e (file.length - 1) := by omega
  have hend : min (e : Int) ((file.length : Int) - 1)
      = ((min e (file.length - 1) : Nat) : Int) := by
    rw [Nat.cast_min, Nat.cast_sub hS1, Nat.cast_one]
  have hlen : min (e : Int) ((file.length : Int) - 1) - (s : Int) + 1
      = ((min e (file.length - 1) - s + 1 : Nat) : Int) := by
    rw [hend]
    push_cast [Nat.cast_sub hsE]
    ring
  rw [serveRange_inbounds file s (e : Int) hsS, hlen, hend]
  have hpos : ¬ ((min e (file.length - 1) - s + 1 : Nat) : Int) ≤ 0 := by
    push_cast
    omega
  rw [if_neg hpos, Int.toNat_natCast, intRender_natCast, intRender_natCast,
    readChunks_eq]

/-- `serveRange` when the parsed start is at or past the file size:
`abort(416)`. -/
theorem serveRange_oob (file : List Nat) (s : Nat) (e : Int)
    (h : file.length ≤ s) : serveRange file s e = .httpAbort 416 := by
  unfold serveRange
  rw [if_pos (by omega)]

/-- A suffix-form header `bytes=-<de>` parses with start 0 (the empty
start string) and end `de`. -/
theorem rrr_suffix (file : List Nat) (de : List Char) (e : Nat)
    (hde : pyIntParse de = some e) :
    range_request_response file (some (mkRangeHeader [] de))
      = serveRange file 0 (e : Int) := by
  have hene : de ≠ [] := (pyIntParse_chars hde).1
  have hne : ¬ mkRangeHeader [] de = [] := by simp [mkRangeHeader]
  have hsplit1 : splitOnChar '=' (mkRangeHeader [] de)
      = ["bytes".toList, '-' :: de] := by
    have h1 : ('=' : Char) ∉ "bytes".toList := by decide
    have h2 : ('=' : Char) ∉ '-' :: de := by
      intro hm
      rcases List.mem_cons.mp hm with hm | hm
      · exact absurd hm (by decide)
      · exact parse_not_mem_eq hde hm
    have : mkRangeHeader [] de = "bytes".toList ++ '=' :: ('-' :: de) := rfl
    rw [this, splitOnChar_append _ _ _ h1, splitOnChar_of_not_mem h2]
  have hsplit2 : splitOnChar '-' ('-' :: de) = [[], de] := by
    have h2 : ('-' : Char) ∉ de := parse_not_mem_dash hde
    have : ('-' :: de : List Char) = [] ++ '-' :: de := rfl
    rw [this, splitOnChar_append _ _ _ (by simp), splitOnChar_of_not_mem h2]
  unfold range_request_response
  simp only [hsplit1, hsplit2, hde, if_neg hne, if_neg hene, ne_eq,
    not_true_eq_false, if_false, if_pos rfl, Option.map_some]
  rfl

/-- A header whose unit piece is not `bytes` is refused with 416. -/
theorem rrr_bad_unit (file : List Nat) (u spec : List Char)
    (hu1 : ('=' : Char) ∉ u) (hu2 : u ≠ "bytes".toList)
    (hspec : ('=' : Char) ∉ spec) :
    range_request_response file (some (u ++ '=' :: spec)) = .httpAbort 416 := by
  have hne : ¬ (u ++ '=' :: spec) = [] := by simp
  have hsplit1 : splitOnChar '=' (u ++ '=' :: spec) = [u, spec] := by
    rw [splitOnChar_append _ _ _ hu1, splitOnChar_of_not_mem hspec]
  unfold range_request_response
  simp only [hsplit1, if_neg hne, if_pos hu2]

/-- A header `bytes=<ds>-<de>` in which a non-empty piece fails `int(...)`
is refused with 416. -/
theorem rrr_unparsable (file : List Nat) (ds de : List Char)
    (hd1 : ('=' : Char) ∉ ds) (hd2 : ('-' : Char) ∉ ds)
    (he1 : ('=' : Char) ∉ de) (he2 : ('-' : Char) ∉ de)
    (hbad : (ds ≠ [] ∧ pyIntParse ds = none) ∨ (de ≠ [] ∧ pyIntParse de = none)) :
    range_request_response file (some (mkRangeHeader ds de)) = .httpAbort 416 := by
  have hne : ¬ mkRangeHeader ds de = [] := by simp [mkRangeHeader]
  have hsplit1 : splitOnChar '=' (mkRangeHeader ds de)
      = ["bytes".toList, ds ++ '-' :: de] := by
    have h1 : ('=' : Char) ∉ "bytes".toList := by decide
    have h2 : ('=' : Char) ∉ ds ++ '-' :: de := by
      intro hm
      rcases List.mem_append.mp hm with hm | hm
      · exact hd1 hm
      · rcases List.mem_cons.mp hm with hm | hm
        · exact absurd hm (by decide)
        · exact he1 hm
    have : mkRangeHeader ds de = "bytes".toList ++ '=' :: (ds ++ '-' :: de) := rfl
    rw [this, splitOnChar_append _ _ _ h1, splitOnChar_of_not_mem h2]
  have hsplit2 : splitOnChar '-' (ds ++ '-' :: de) = [ds, de] := by
    rw [splitOnChar_append _ _ _ hd2, splitOnChar_of_not_mem he2]
  unfold range_request_response
  simp only [hsplit1, hsplit2, if_neg hne, ne_eq, not_true_eq_false, if_false]
  rcases hbad with ⟨hdn, hdp⟩ | ⟨hen, hep⟩
  · simp only [if_neg hdn, hdp]
  · rcases hq : (if ds = [] then some (0 : Nat) else pyIntParse ds) with _ | v
    · simp only [hq]
    · simp only [hq, if_neg hen, hep]
      rfl

theorem digitsVal_append_digit (a : List Char) (c : Char) :
    digitsVal (a ++ [c]) = 10 * digitsVal a + (c.toNat - 48) := by
  unfold digitsVal
  rw [List.foldl_append]
  rfl

theorem digitsVal_natDigitsAux :
    ∀ fuel n, n < fuel → digitsVal (natDigitsAux fuel n) = n := by
  intro fuel
  induction fuel with
  | zero => intro n h; omega
  | succ fuel ih =>
    intro n h
    rw [natDigitsAux]
    by_cases h10 : n < 10
    · rw [if_pos h10]
      interval_cases n <;> decide
    · rw [if_neg h10, digitsVal_append_digit, ih (n / 10) (by omega)]
      have hm : n % 10 < 10 := Nat.mod_lt _ (by omega)
      have h2 : (Char.ofNat (48 + n % 10)).toNat - 48 = n % 10 := by
        generalize n % 10 = m at hm
        interval_cases m <;> decide
      rw [h2]
      omega

theorem digitsVal_natDigits (n : Nat) : digitsVal (natDigits n) = n :=
  digitsVal_natDigitsAux (n + 1) n (Nat.lt_succ_self n)

theorem variantName_inj (base ext : List Char) {k1 k2 : Nat}
    (h : variantName base ext k1 = variantName base ext k2) : k1 = k2 := by
  unfold variantName at h
  have h1 := List.append_cancel_left h
  injection h1 with _ h2
  have h3 := List.append_cancel_right h2
  have h4 := congrArg digitsVal h3
  rwa [digitsVal_natDigits, digitsVal_natDigits] at h4

/-- Among the first `dest.length + 1` candidate counters, at least one
variant name is not yet taken (the variants are pairwise distinct, so more
candidates than names in `dest` cannot all collide). -/
theorem exists_free_variant (dest : List (List Char)) (base ext : List Char) :
    ∃ j, j < dest.length + 1 ∧ variantName base ext (1 + j) ∉ dest := by
  by_contra hcon
  push_neg at hcon
  have hmap : ∀ a : Fin (dest.length + 1), variantName base ext (1 + (a : Nat)) ∈ dest.toFinset :=
    fun a => List.mem_toFinset.mpr (hcon a a.isLt)
  have hcard : dest.toFinset.card < (Finset.univ : Finset (Fin (dest.length + 1))).card := by
    rw [Finset.card_univ, Fintype.card_fin]
    exact Nat.lt_succ_of_le (List.toFinset_card_le dest)
  obtain ⟨x, _, y, _, hxy, hfeq⟩ :=
    Finset.exists_ne_map_eq_of_card_lt_of_maps_to hcard (fun a _ => hmap a)
  have hv := variantName_inj base ext hfeq
  exact hxy (Fin.ext (by omega))

/-- The fuelled while-loop of the collision search returns the FIRST free
variant at or after the starting counter, provided some free variant lies
within the fuel. -/
theorem findFreeAux_spec (dest : List (List Char)) (base ext : List Char) :
    ∀ (fuel k : Nat), (∃ j, j < fuel ∧ variantName base ext (k + j) ∉ dest) →
      ∃ m, findFreeAux dest base ext fuel k = variantName base ext (k + m) ∧
        variantName base ext (k + m) ∉ dest ∧
        ∀ j, j < m → variantName base ext (k + j) ∈ dest := by
  intro fuel
  induction fuel with
  | zero =>
    intro k h
    obtain ⟨j, hj, _⟩ := h
    omega
  | succ fuel ih =>
    intro k hex
    by_cases hk : variantName base ext k ∈ dest
    · obtain ⟨j, hj, hjf⟩ := hex
      have hj0 : j ≠ 0 := by
        intro e
        subst e
        rw [Nat.add_zero] at hjf
        exact hjf hk
      obtain ⟨m, hm1, hm2, hm3⟩ := ih (k + 1)
        ⟨j - 1, by omega, by rw [show k + 1 + (j - 1) = k + j by omega]; exact hjf⟩
      refine ⟨m + 1, ?_, ?_, ?_⟩
      · rw [findFreeAux, if_pos hk, hm1, show k + 1 + m = k + (m + 1) by omega]
      · rw [show k + (m + 1) = k + 1 + m by omega]
        exact hm2
      · intro j' hj'
        rcases j' with _ | j''
        · rw [Nat.add_zero]
          exact hk
        · rw [show k + (j'' + 1) = k + 1 + j'' by omega]
          exact hm3 j'' (by omega)
    · refine ⟨0, ?_, by rw [Nat.add_zero]; exact hk, by omega⟩
      rw [findFreeAux, if_neg hk, Nat.add_zero]

/-- Characterization of the chosen destination name: it never collides
with the current directory contents; a free original name is kept; a
taken one gets the first free numeric-suffix variant. -/
theorem resolveCollision_spec (dest : List (List Char)) (f : List Char) :
    resolveCollision dest f ∉ dest ∧
    (f ∉ dest → resolveCollision dest f = f) ∧
    (f ∈ dest → ∃ k, 0 < k ∧
      resolveCollision dest f = variantName (splitext f).1 (splitext f).2 k ∧
      ∀ j, 0 < j → j < k → variantName (splitext f).1 (splitext f).2 j ∈ dest) := by
  by_cases hf : f ∈ dest
  · obtain ⟨j, hj, hjf⟩ := exists_free_variant dest (splitext f).1 (splitext f).2
    have hex : ∃ j', j' < dest.length + 1 ∧
        variantName (splitext f).1 (splitext f).2 (1 + j') ∉ dest := ⟨j, hj, hjf⟩
    obtain ⟨m, hm1, hm2, hm3⟩ := findFreeAux_spec dest (splitext f).1 (splitext f).2
      (dest.length + 1) 1 hex
    have hres : resolveCollision dest f
        = variantName (splitext f).1 (splitext f).2 (1 + m) := by
      rw [resolveCollision, if_pos hf, hm1]
    refine ⟨?_, fun hnf => absurd hf hnf, fun _ => ⟨1 + m, by omega, hres, ?_⟩⟩
    · rw [hres]
      exact hm2
    · intro j' hj'0 hj'm
      have := hm3 (j' - 1) (by omega)
      rwa [show 1 + (j' - 1) = j' by omega] at this
  · rw [resolveCollision, if_neg hf]
    exact ⟨hf, fun _ => rfl, fun hmem => absurd hmem hf⟩

theorem processFilesAux_mem_mono (exts : List (List Char)) :
    ∀ (fs dest deleted : List (List Char)) (n : List Char), n ∈ dest →
      n ∈ (processFilesAux exts fs dest deleted).1 := by
  intro fs
  induction fs with
  | nil => intro dest deleted n h; exact h
  | cons f fs ih =>
    intro dest deleted n h
    rw [processFilesAux]
    by_cases ha : isAllowedFile exts f = true
    · rw [if_pos ha]
      exact ih _ _ n (List.mem_append.mpr (Or.inl h))
    · rw [if_neg ha]
      exact ih _ _ n h

theorem processFilesAux_deleted (exts : List (List Char)) :
    ∀ (fs dest deleted : List (List Char)),
      (processFilesAux exts fs dest deleted).2
        = deleted ++ fs.filter (fun f => !(isAllowedFile exts f)) := by
  intro fs
  induction fs with
  | nil => intro dest deleted; simp [processFilesAux]
  | cons f fs ih =>
    intro dest deleted
    rw [processFilesAux]
    by_cases ha : isAllowedFile exts f = true
    · rw [if_pos ha, ih]
      simp [List.filter_cons, ha]
    · rw [if_neg ha, ih]
      simp [List.filter_cons, ha]

theorem processFilesAux_allowed_mem (exts : List (List Char)) :
    ∀ (fs dest deleted : List (List Char)) (f : List Char), f ∈ fs →
      isAllowedFile exts f = true →
      ∃ n, n ∈ (processFilesAux exts fs dest deleted).1 ∧
        (n = f ∨ ∃ k, 0 < k ∧ n = variantName (splitext f).1 (splitext f).2 k) := by
  intro fs
  induction fs with
  | nil => intro dest deleted f h; exact absurd h (List.not_mem_nil f)
  | cons g fs ih =>
    intro dest deleted f hmem ha
    rw [processFilesAux]
    rcases List.mem_cons.mp hmem with rfl | hmem'
    · rw [if_pos ha]
      refine ⟨resolveCollision dest f, ?_, ?_⟩
      · exact processFilesAux_mem_mono exts fs _ _ _
          (List.mem_append.mpr (Or.inr (List.mem_singleton.mpr rfl)))
      · rcases (resolveCollision_spec dest f).2 with ⟨hfree, htaken⟩
        by_cases hf : f ∈ dest
        · obtain ⟨k, hk0, hkeq, _⟩ := htaken hf
          exact Or.inr ⟨k, hk0, hkeq⟩
        · exact Or.inl (hfree hf)
    · by_cases hg : isAllowedFile exts g = true
      · rw [if_pos hg]
        exact ih _ _ f hmem' ha
      · rw [if_neg hg]
        exact ih _ _ f hmem' ha

/-! ## Claims about the Range Streamer -/

/-- **C1**: for an existing file of size `S` and a Range header parsing to
start `s` and end `e` with `0 ≤ s ≤ e` and `s < S`, the response has
status 206, its body is exactly the byte slice `[s, min e (S-1)]`,
Content-Length is `min e (S-1) - s + 1`, and Content-Range is
`bytes {s}-{min e (S-1)}/{S}`. -/
theorem C1_valid_range_serves_slice (file : List Nat) (ds de : List Char)
    (s e : Nat) (hds : pyIntParse ds = some s) (hde : pyIntParse de = some e)
    (hse : s ≤ e) (hsS : s < file.length) :
    range_request_response file (some (mkRangeHeader ds de)) =
      .ok 206 ((file.drop s).take (min e (file.length - 1) - s + 1))
        [("Content-Range",
           "bytes ".toList ++ natDigits s ++ ['-']
             ++ natDigits (min e (file.length - 1)) ++ ['/'] ++ natDigits file.length),
         ("Accept-Ranges", "bytes".toList),
         ("Content-Length", natDigits (min e (file.length - 1) - s + 1))]
      ∧ ((file.drop s).take (min e (file.length - 1) - s + 1)).length
          = min e (file.length - 1) - s + 1 := by
  constructor
  · rw [rrr_parsed file ds de s e hds hde, serveRange_valid file s e hse hsS]
  · rw [List.length_take, List.length_drop]
    omega

/-- Witness for C1 at file `[10,11,12,13,14]` and header `bytes=1-7`
(end clamped to 4). -/
theorem C1_valid_range_serves_slice_witness :
    range_request_response [10, 11, 12, 13, 14] (some (mkRangeHeader ['1'] ['7'])) =
      .ok 206 ((([10, 11, 12, 13, 14] : List Nat).drop 1).take
          (min 7 (([10, 11, 12, 13, 14] : List Nat).length - 1) - 1 + 1))
        [("Content-Range",
           "bytes ".toList ++ natDigits 1 ++ ['-']
             ++ natDigits (min 7 (([10, 11, 12, 13, 14] : List Nat).length - 1))
             ++ ['/'] ++ natDigits ([10, 11, 12, 13, 14] : List Nat).length),
         ("Accept-Ranges", "bytes".toList),
         ("Content-Length",
           natDigits (min 7 (([10, 11, 12, 13, 14] : List Nat).length - 1) - 1 + 1))]
      ∧ ((([10, 11, 12, 13, 14] : List Nat).drop 1).take
          (min 7 (([10, 11, 12, 13, 14] : List Nat).length - 1) - 1 + 1)).length
          = min 7 (([10, 11, 12, 13, 14] : List Nat).length - 1) - 1 + 1 :=
  C1_valid_range_serves_slice [10, 11, 12, 13, 14] ['1'] ['7'] 1 7
    (by decide) (by decide) (by decide) (by decide)

/-- **C2 counterexample**: the suffix-form header `bytes=-5` on a 100-byte
file does NOT fail with 416 — it is parsed as start 0 (the empty start
string), end 5, and served as a normal 206 partial response. -/
theorem C2_suffix_form_served_counterexample :
    range_request_response (List.replicate 100 0) (some ("bytes=-5".toList))
        = .ok 206 (List.replicate 6 0)
          [("Content-Range", "bytes 0-5/100".toList),
           ("Accept-Ranges", "bytes".toList),
           ("Content-Length", "6".toList)]
      ∧ ¬ (range_request_response (List.replicate 100 0) (some ("bytes=-5".toList))
            = .httpAbort 416) := by
  constructor
  · decide
  · decide

/-- **C2 amended**: with a present Range header, 416 is returned exactly
for a non-`bytes` unit, a non-empty piece that Python's `int()` rejects
(`pyIntParse` models `int()` faithfully for the latin-1 strings headers
can contain), or a parsed start at or past the file size.  The suffix
form `bytes=-N` is NOT one of the failing cases: it is parsed as start 0
and end `N`, so it aborts with 416 exactly when the file is empty and is
otherwise served with 206. -/
theorem C2_416_characterization (file : List Nat) (u ds de junk : List Char)
    (s e : Nat) (hds : pyIntParse ds = some s) (hde : pyIntParse de = some e)
    (hu1 : ('=' : Char) ∉ u) (hu2 : u ≠ "bytes".toList)
    (hj1 : ('=' : Char) ∉ junk) (hj2 : ('-' : Char) ∉ junk)
    (hj3 : pyIntParse junk = none) (hj4 : junk ≠ []) :
    (range_request_response file (some (mkRangeHeader [] de)) = .httpAbort 416
        ↔ file.length = 0) ∧
    (0 < file.length →
      (range_request_response file (some (mkRangeHeader [] de))).okStatus = some 206) ∧
    (range_request_response file (some (mkRangeHeader ds de)) = .httpAbort 416
        ↔ file.length ≤ s) ∧
    range_request_response file (some (u ++ '=' :: (ds ++ '-' :: de))) = .httpAbort 416 ∧
    range_request_response file (some (mkRangeHeader junk de)) = .httpAbort 416 ∧
    range_request_response file (some (mkRangeHeader ds junk)) = .httpAbort 416 := by
  refine ⟨?_, ?_, ?_, ?_, ?_, ?_⟩
  · rw [rrr_suffix file de e hde]
    constructor
    · intro h
      by_contra hpos
      rw [serveRange_inbounds file 0 (e : Int) (by omega)] at h
      exact StreamResult.noConfusion h
    · intro h
      exact serveRange_oob file 0 (e : Int) (by omega)
  · intro hpos
    rw [rrr_suffix file de e hde, serveRange_inbounds file 0 (e : Int) (by omega)]
    rfl
  · rw [rrr_parsed file ds de s e hds hde]
    constructor
    · intro h
      by_contra hlt
      rw [serveRange_inbounds file s (e : Int) (by omega)] at h
      exact StreamResult.noConfusion h
    · intro h
      exact serveRange_oob file s (e : Int) h
  · refine rrr_bad_unit file u (ds ++ '-' :: de) hu1 hu2 ?_
    intro hm
    rcases List.mem_append.mp hm with hm | hm
    · exact parse_not_mem_eq hds hm
    · rcases List.mem_cons.mp hm with hm | hm
      · exact absurd hm (by decide)
      · exact parse_not_mem_eq hde hm
  · exact rrr_unparsable file junk de hj1 hj2
      (parse_not_mem_eq hde) (parse_not_mem_dash hde)
      (Or.inl ⟨hj4, hj3⟩)
  · exact rrr_unparsable file ds junk
      (parse_not_mem_eq hds) (parse_not_mem_dash hds)
      hj1 hj2 (Or.inr ⟨hj4, hj3⟩)

/-- Witness for the amended C2 at a 3-byte file, `ds = "1"`, `de = "2"`,
unit `"bits"`, junk piece `"x"`. -/
theorem C2_416_characterization_witness :
    (range_request_response [7, 8, 9] (some (mkRangeHeader [] ['2'])) = .httpAbort 416
        ↔ ([7, 8, 9] : List Nat).length = 0) ∧
    (0 < ([7, 8, 9] : List Nat).length →
      (range_request_response [7, 8, 9] (some (mkRangeHeader [] ['2']))).okStatus
        = some 206) ∧
    (range_request_response [7, 8, 9] (some (mkRangeHeader ['1'] ['2'])) = .httpAbort 416
        ↔ ([7, 8, 9] : List Nat).length ≤ 1) ∧
    range_request_response [7, 8, 9]
        (some ("bits".toList ++ '=' :: (['1'] ++ '-' :: ['2']))) = .httpAbort 416 ∧
    range_request_response [7, 8, 9] (some (mkRangeHeader ['x'] ['2'])) = .httpAbort 416 ∧
    range_request_response [7, 8, 9] (some (mkRangeHeader ['1'] ['x'])) = .httpAbort 416 :=
  C2_416_characterization [7, 8, 9] "bits".toList ['1'] ['2'] ['x'] 1 2
    (by decide) (by decide) (by decide) (by decide) (by decide) (by decide)
    (by decide) (by decide)

/-- **C9 counterexample**: the header `bytes=50-10` (start 50 > end 10) on
a 100-byte file is not rejected: it is served with status 206, an empty
body, Content-Range `bytes 50-10/100` and a negative Content-Length. -/
theorem C9_start_gt_end_served_counterexample :
    range_request_response (List.replicate 100 0) (some ("bytes=50-10".toList))
        = .ok 206 []
          [("Content-Range", "bytes 50-10/100".toList),
           ("Accept-Ranges", "bytes".toList),
           ("Content-Length", "-39".toList)]
      ∧ ¬ (range_request_response (List.replicate 100 0) (some ("bytes=50-10".toList))
            = .httpAbort 416) := by
  constructor
  · decide
  · decide

/-- **C9 amended**: a served range with `s ≤ e` does satisfy
`0 ≤ s ≤ min e (S-1) < S`; but a header parsing to `s > e` (with `s < S`)
is not rejected — it is served with status 206, an empty body and a
non-positive Content-Length. -/
theorem C9_byte_range_invariant (file : List Nat) (ds de : List Char)
    (s e : Nat) (hds : pyIntParse ds = some s) (hde : pyIntParse de = some e)
    (hsS : s < file.length) :
    (s ≤ e →
      s ≤ min e (file.length - 1) ∧ min e (file.length - 1) < file.length ∧
      (range_request_response file (some (mkRangeHeader ds de))).okStatus = some 206) ∧
    (e < s →
      range_request_response file (some (mkRangeHeader ds de))
          = .ok 206 []
            [("Content-Range",
               "bytes ".toList ++ natDigits s ++ ['-']
                 ++ intRender (min (e : Int) ((file.length : Int) - 1)) ++ ['/']
                 ++ natDigits file.length),
             ("Accept-Ranges", "bytes".toList),
             ("Content-Length",
               intRender (min (e : Int) ((file.length : Int) - 1) - (s : Int) + 1))]
        ∧ min (e : Int) ((file.length : Int) - 1) - (s : Int) + 1 ≤ 0) := by
  constructor
  · intro hse
    refine ⟨by omega, by omega, ?_⟩
    rw [rrr_parsed file ds de s e hds hde, serveRange_inbounds file s (e : Int) hsS]
    rfl
  · intro hes
    have hnp : min (e : Int) ((file.length : Int) - 1) - (s : Int) + 1 ≤ 0 := by
      have : min (e : Int) ((file.length : Int) - 1) ≤ (e : Int) := min_le_left _ _
      omega
    refine ⟨?_, hnp⟩
    rw [rrr_parsed file ds de s e hds hde, serveRange_inbounds file s (e : Int) hsS,
      if_pos hnp]

/-- Witness for the amended C9 at a 100-byte file and header
`bytes=50-10`. -/
theorem C9_byte_range_invariant_witness :
    (50 ≤ 10 →
      50 ≤ min 10 ((List.replicate 100 (0 : Nat)).length - 1) ∧
      min 10 ((List.replicate 100 (0 : Nat)).length - 1)
          < (List.replicate 100 (0 : Nat)).length ∧
      (range_request_response (List.replicate 100 0)
          (some (mkRangeHeader ['5', '0'] ['1', '0']))).okStatus = some 206) ∧
    (10 < 50 →
      range_request_response (List.replicate 100 0)
          (some (mkRangeHeader ['5', '0'] ['1', '0']))
          = .ok 206 []
            [("Content-Range",
               "bytes ".toList ++ natDigits 50 ++ ['-']
                 ++ intRender (min ((10 : Nat) : Int)
                     (((List.replicate 100 (0 : Nat)).length : Int) - 1)) ++ ['/']
                 ++ natDigits (List.replicate 100 (0 : Nat)).length),
             ("Accept-Ranges", "bytes".toList),
             ("Content-Length",
               intRender (min ((10 : Nat) : Int)
                   (((List.replicate 100 (0 : Nat)).length : Int) - 1)
                 - ((50 : Nat) : Int) + 1))]
        ∧ min ((10 : Nat) : Int) (((List.replicate 100 (0 : Nat)).length : Int) - 1)
            - ((50 : Nat) : Int) + 1 ≤ 0) :=
  C9_byte_range_invariant (List.replicate 100 0) ['5', '0'] ['1', '0'] 50 10
    (by decide) (by decide) (by decide)

/-! ## Claims about the transcode pipeline -/

/-- **C7**: for every source path, target height in {480, 720, 1080} and
backend, the built ffmpeg command contains `-vf` immediately followed by
the filter `scale=-2:min(ih,<target>)`, whose output height at source
height `H` is `min H target` — never above the source height. -/
theorem C7_scale_filter_never_upscales (video_path : String) (t : Nat)
    (backend : String) (ht : t = 480 ∨ t = 720 ∨ t = 1080) :
    (∃ pre post, _build_ffmpeg_transcode_cmd video_path t backend
        = pre ++ ["-vf", "scale=-2:min(ih," ++ toString t ++ ")"] ++ post)
    ∧ ∀ H : Nat, scaleExprHeight H t = min H t ∧ scaleExprHeight H t ≤ H := by
  refine ⟨?_, fun H => ⟨rfl, Nat.min_le_left _ _⟩⟩
  refine ⟨["ffmpeg", "-hide_banner", "-loglevel", "error"]
      ++ (if backend = "nvidia" then ["-hwaccel", "cuda"]
          else if backend = "intel" then ["-hwaccel", "qsv"]
          else if backend = "amd" then ["-hwaccel", "vaapi"]
          else [])
      ++ ["-i", video_path],
    ["-c:v",
      if backend = "nvidia" then "h264_nvenc"
      else if backend = "intel" then "h264_qsv"
      else if backend = "amd" then "h264_vaapi"
      else "libx264",
      "-preset", "fast", "-c:a", "aac", "-b:a", "128k", "-ac", "2",
      "-movflags", "frag_keyframe+empty_moov", "-f", "mp4", "-"], ?_⟩
  unfold _build_ffmpeg_transcode_cmd
  simp

/-- Witness for C7 at target height 720 and backend nvidia. -/
theorem C7_scale_filter_never_upscales_witness :
    (∃ pre post, _build_ffmpeg_transcode_cmd "v.mp4" 720 "nvidia"
        = pre ++ ["-vf", "scale=-2:min(ih," ++ toString 720 ++ ")"] ++ post)
    ∧ ∀ H : Nat, scaleExprHeight H 720 = min H 720 ∧ scaleExprHeight H 720 ≤ H :=
  C7_scale_filter_never_upscales "v.mp4" 720 "nvidia" (by decide)

/-- **C6**: when spawning the encoder fails, a non-cpu backend is retried
exactly once with the cpu command (the call trace is precisely those two
argument lists); if the retry also fails, or the backend was already cpu,
the result is the Range Streamer's response on the original file — with no
Range header that fallback is a plain 200 full-file stream, never an error
status. -/
theorem C6_spawn_failure_retries_cpu_then_raw (spawnOk : List String → Bool)
    (file : List Nat) (rangeHeader : Option (List Char)) (video_path : String)
    (t : Nat) (backend : String)
    (hfail : spawnOk (_build_ffmpeg_transcode_cmd video_path t backend) = false) :
    (backend ≠ "cpu" →
      (_transcoded_stream_response spawnOk file rangeHeader video_path t backend).2
        = [_build_ffmpeg_transcode_cmd video_path t backend,
           _build_ffmpeg_transcode_cmd video_path t "cpu"]
      ∧ (spawnOk (_build_ffmpeg_transcode_cmd video_path t "cpu") = true →
          (_transcoded_stream_response spawnOk file rangeHeader video_path t backend).1
            = .stream (_build_ffmpeg_transcode_cmd video_path t "cpu"))
      ∧ (spawnOk (_build_ffmpeg_transcode_cmd video_path t "cpu") = false →
          (_transcoded_stream_response spawnOk file rangeHeader video_path t backend).1
            = .raw (range_request_response file rangeHeader))) ∧
    (backend = "cpu" →
      (_transcoded_stream_response spawnOk file rangeHeader video_path t backend).1
          = .raw (range_request_response file rangeHeader)
      ∧ (_transcoded_stream_response spawnOk file rangeHeader video_path t backend).2
          = [_build_ffmpeg_transcode_cmd video_path t backend]) ∧
    (rangeHeader = none →
      (range_request_response file rangeHeader).okStatus = some 200) := by
  refine ⟨?_, ?_, ?_⟩
  · intro hb
    unfold _transcoded_stream_response
    rcases hcpu : spawnOk (_build_ffmpeg_transcode_cmd video_path t "cpu") with _ | _
    · simp [hfail, hcpu, hb]
    · simp [hfail, hcpu, hb]
  · intro hb
    subst hb
    unfold _transcoded_stream_response
    simp [hfail]
  · intro hr
    subst hr
    rfl

/-- Witness for C6: a spawn oracle that always fails, nvidia backend, a
one-byte file, no Range header. -/
theorem C6_spawn_failure_retries_cpu_then_raw_witness :
    (("nvidia" : String) ≠ "cpu" →
      (_transcoded_stream_response (fun _ => false) [0] none "v.mp4" 720 "nvidia").2
        = [_build_ffmpeg_transcode_cmd "v.mp4" 720 "nvidia",
           _build_ffmpeg_transcode_cmd "v.mp4" 720 "cpu"]
      ∧ ((fun (_ : List String) => false) (_build_ffmpeg_transcode_cmd "v.mp4" 720 "cpu") = true →
          (_transcoded_stream_response (fun _ => false) [0] none "v.mp4" 720 "nvidia").1
            = .stream (_build_ffmpeg_transcode_cmd "v.mp4" 720 "cpu"))
      ∧ ((fun (_ : List String) => false) (_build_ffmpeg_transcode_cmd "v.mp4" 720 "cpu") = false →
          (_transcoded_stream_response (fun _ => false) [0] none "v.mp4" 720 "nvidia").1
            = .raw (range_request_response [0] none))) ∧
    (("nvidia" : String) = "cpu" →
      (_transcoded_stream_response (fun _ => false) [0] none "v.mp4" 720 "nvidia").1
          = .raw (range_request_response [0] none)
      ∧ (_transcoded_stream_response (fun _ => false) [0] none "v.mp4" 720 "nvidia").2
          = [_build_ffmpeg_transcode_cmd "v.mp4" 720 "nvidia"]) ∧
    ((none : Option (List Char)) = none →
      (range_request_response [0] (none : Option (List Char))).okStatus = some 200) :=
  C6_spawn_failure_retries_cpu_then_raw (fun _ => false) [0] none "v.mp4" 720 "nvidia" rfl

/-! ## Claims about the torrent job -/

/-- The worker's trace has the shape: construction states, loop states,
then the terminal tail (libtorrent available). -/
theorem TorrentJob_run_eq_lt (env : WorkerEnv) (fuel : Nat)
    (hlt : env.ltAvailable = true) :
    TorrentJob_run env fuel =
      { trace := ([initJobState env,
            { initJobState env with status := "downloading" },
            startDownloading env]
            ++ (runLoop env fuel (startDownloading env) 0).1)
          ++ (terminalTail env (runLoop env fuel (startDownloading env) 0).2).1,
        cleanupTemp := (terminalTail env (runLoop env fuel (startDownloading env) 0).2).2.1,
        notified := (terminalTail env (runLoop env fuel (startDownloading env) 0).2).2.2 } := by
  unfold TorrentJob_run
  rw [if_pos hlt]
  rfl

/-- The worker's trace when libtorrent is missing. -/
theorem TorrentJob_run_eq_nolt (env : WorkerEnv) (fuel : Nat)
    (hlt : ¬ env.ltAvailable = true) :
    TorrentJob_run env fuel =
      { trace := [initJobState env,
          { initJobState env with status := "error" },
          { initJobState env with status := "error", error := some "python-libtorrent is not installed." }],
        cleanupTemp := false, notified := true } := by
  unfold TorrentJob_run
  rw [if_neg hlt]

/-- **C3 counterexample**: in a run that completes immediately, the
snapshot taken right after the status first reads `completed` (trace index
10) differs from a later snapshot (index 12): `completed_at` (and, in
general, also `progress`) is still written after the status turned
terminal (torrent_downloader.py lines 206-208). -/
theorem C3_snapshot_after_terminal_changes_counterexample :
    isTerminal (((TorrentJob_run envSeedNow 5).trace.getD 10
        (initJobState envSeedNow)).status) = true ∧
    (TorrentJob_to_dict ((TorrentJob_run envSeedNow 5).trace.getD 10
        (initJobState envSeedNow))).completed_at = none ∧
    (TorrentJob_to_dict ((TorrentJob_run envSeedNow 5).trace.getD 12
        (initJobState envSeedNow))).completed_at = some 20 ∧
    TorrentJob_to_dict ((TorrentJob_run envSeedNow 5).trace.getD 10
        (initJobState envSeedNow))
      ≠ TorrentJob_to_dict ((TorrentJob_run envSeedNow 5).trace.getD 12
        (initJobState envSeedNow)) := by
  have hx : (TorrentJob_to_dict ((TorrentJob_run envSeedNow 5).trace.getD 10
      (initJobState envSeedNow))).completed_at = none := by decide
  have hy : (TorrentJob_to_dict ((TorrentJob_run envSeedNow 5).trace.getD 12
      (initJobState envSeedNow))).completed_at = some 20 := by decide
  refine ⟨by decide, hx, hy, fun h => ?_⟩
  rw [h, hy] at hx
  exact Option.noConfusion hx

/-- **C3 amended**: once the status field holds a terminal value, the
status never changes again, and every field other than `progress` and
`completed_at` (written right after `status = "completed"`, lines
207-208) and `error` (written right after `status = "error"`) stays
frozen: any later observation point of the worker's trace agrees with the
terminal one on all those fields. -/
theorem C3_no_mutation_after_terminal_amended (env : WorkerEnv) (fuel : Nat) :
    List.Pairwise (fun a b => isTerminal a.status = true → frozenAgree a b)
      (TorrentJob_run env fuel).trace := by
  by_cases hlt : env.ltAvailable = true
  · rw [TorrentJob_run_eq_lt env fuel hlt]
    apply pairwise_append_nonterminal
    · intro τ hτ
      rcases List.mem_append.mp hτ with h | h
      · rcases List.mem_cons.mp h with h | h
        · rw [h]; rfl
        · rcases List.mem_cons.mp h with h | h
          · rw [h]; rfl
          · rw [List.mem_singleton.mp h]; rfl
      · rw [(runLoop_status env fuel (startDownloading env) 0).1 τ h]
        rfl
    · exact terminalTail_pairwise env _
  · rw [TorrentJob_run_eq_nolt env fuel hlt]
    refine List.Pairwise.cons ?_ (List.Pairwise.cons ?_ (List.pairwise_singleton _ _))
    · intro b _ ht
      have hq : isTerminal (initJobState env).status = false := rfl
      rw [hq] at ht
      exact Bool.noConfusion ht
    · intro b hb _
      rw [List.mem_singleton.mp hb]
      exact ⟨rfl, rfl, rfl, rfl, rfl, rfl, rfl, rfl, rfl⟩

/-- If the worker reads a true cancel flag at the top of iteration `c`,
having read false flags and non-seeding, non-raising statuses before, the
loop exits through the cancel branch. -/
theorem runLoop_cancel (env : WorkerEnv) :
    ∀ (c fuel : Nat) (σ : JobState) (i : Nat),
      env.cancelTop (i + c) = true →
      (∀ j, j < c → env.cancelTop (i + j) = false ∧
        ∃ s, env.statusAt (i + j) = some s ∧ (s.is_seeding || s.state_seeding) = false) →
      c < fuel →
      ∃ σ', (runLoop env fuel σ i).2 = .cancelExit σ' := by
  intro c
  induction c with
  | zero =>
    intro fuel σ i hc _ hfuel
    rcases fuel with _ | fuel
    · omega
    · refine ⟨σ, ?_⟩
      rw [Nat.add_zero] at hc
      simp [runLoop, hc]
  | succ c ih =>
    intro fuel σ i hc hprev hfuel
    rcases fuel with _ | fuel
    · omega
    · obtain ⟨hc0, s, hs0, hseed0⟩ := hprev 0 (by omega)
      rw [Nat.add_zero] at hc0 hs0
      have hrec := ih fuel (loopStep env σ i s).2 (i + 1)
        (by rw [show i + 1 + c = i + (c + 1) by omega]; exact hc)
        (fun j hj => by
          rw [show i + 1 + j = i + (j + 1) by omega]
          exact hprev (j + 1) (by omega))
        (by omega)
      obtain ⟨σ', hσ'⟩ := hrec
      refine ⟨σ', ?_⟩
      simp only [runLoop, hc0, Bool.false_eq_true, if_false, hs0, hseed0]
      exact hσ'

theorem status_ne_of_eq (σ : JobState) (st : String) (h : σ.status = st)
    (h1 : st ≠ "completed") (h2 : st ≠ "error") :
    σ.status ≠ "completed" ∧ σ.status ≠ "error" := by
  rw [h]
  exact ⟨h1, h2⟩

/-- **C4**: if `cancel()` is observed by the worker (the flag reads true
at the top of some iteration `c`) before the transfer ever reports
seeding and before any engine call raises, then the run ends with status
`cancelled` — no state of the run is ever `completed` or `error` — the
temp directory is removed and the manager notified. -/
theorem C4_cancel_observed_yields_cancelled (env : WorkerEnv) (fuel c : Nat)
    (hlt : env.ltAvailable = true)
    (hc : env.cancelTop c = true)
    (hprev : ∀ j, j < c → env.cancelTop j = false ∧
      ∃ s, env.statusAt j = some s ∧ (s.is_seeding || s.state_seeding) = false)
    (hfuel : c < fuel) :
    (∃ σfin, (TorrentJob_run env fuel).trace.getLast? = some σfin
        ∧ σfin.status = "cancelled") ∧
    (∀ σ ∈ (TorrentJob_run env fuel).trace,
        σ.status ≠ "completed" ∧ σ.status ≠ "error") ∧
    (TorrentJob_run env fuel).cleanupTemp = true ∧
    (TorrentJob_run env fuel).notified = true := by
  obtain ⟨σ', hout⟩ := runLoop_cancel env c fuel (startDownloading env) 0
    (by simpa using hc) (by simpa using hprev) hfuel
  rw [TorrentJob_run_eq_lt env fuel hlt, hout]
  dsimp only [terminalTail]
  refine ⟨⟨{ σ' with status := "cancelled" }, ?_, rfl⟩, ?_, rfl, rfl⟩
  · exact List.getLast?_concat _
  · intro σ hσ
    rcases List.mem_append.mp hσ with h | h
    · rcases List.mem_append.mp h with h | h
      · rcases List.mem_cons.mp h with h | h
        · rw [h]
          exact status_ne_of_eq _ "queued" rfl (by decide) (by decide)
        · rcases List.mem_cons.mp h with h | h
          · rw [h]
            exact status_ne_of_eq _ "downloading" rfl (by decide) (by decide)
          · rw [List.mem_singleton.mp h]
            exact status_ne_of_eq _ "downloading" rfl (by decide) (by decide)
      · have hs := (runLoop_status env fuel (startDownloading env) 0).1 σ h
        exact status_ne_of_eq _ "downloading" hs (by decide) (by decide)
    · rw [List.mem_singleton.mp h]
      exact status_ne_of_eq _ "cancelled" rfl (by decide) (by decide)

/-- Witness for C4: the environment in which the cancel flag is first read
at iteration 1. -/
theorem C4_cancel_observed_yields_cancelled_witness :
    (∃ σfin, (TorrentJob_run envCancelAt1 3).trace.getLast? = some σfin
        ∧ σfin.status = "cancelled") ∧
    (∀ σ ∈ (TorrentJob_run envCancelAt1 3).trace,
        σ.status ≠ "completed" ∧ σ.status ≠ "error") ∧
    (TorrentJob_run envCancelAt1 3).cleanupTemp = true ∧
    (TorrentJob_run envCancelAt1 3).notified = true :=
  C4_cancel_observed_yields_cancelled envCancelAt1 3 1 rfl (by decide)
    (fun j hj => by
      have hj0 : j = 0 := by omega
      subst hj0
      exact ⟨by decide, ⟨_, rfl, by decide⟩⟩)
    (by decide)

/-- **C5**: after a completed transfer's processing step, every file of
the temp tree whose (case-insensitively normalized) extension is in the
allow-list is present in the destination directory, under its original
name or under a numeric-suffix variant; every other file is deleted; the
temp tree is removed; nothing already in the destination directory is
removed; and the chosen name is always collision-free — the original when
free, else the FIRST free `base_k.ext`. -/
theorem C5_processing_moves_allowed_deletes_rest
    (exts tempFiles dest0 : List (List Char)) :
    (∀ f ∈ tempFiles, isAllowedFile exts f = true →
      ∃ n, n ∈ (_process_files exts tempFiles dest0).dest ∧
        (n = f ∨ ∃ k, 0 < k ∧ n = variantName (splitext f).1 (splitext f).2 k)) ∧
    (_process_files exts tempFiles dest0).deleted
        = tempFiles.filter (fun f => !(isAllowedFile exts f)) ∧
    (_process_files exts tempFiles dest0).tempRemoved = true ∧
    (∀ n ∈ dest0, n ∈ (_process_files exts tempFiles dest0).dest) ∧
    (∀ dest f, resolveCollision dest f ∉ dest ∧
      (f ∉ dest → resolveCollision dest f = f) ∧
      (f ∈ dest → ∃ k, 0 < k ∧
        resolveCollision dest f = variantName (splitext f).1 (splitext f).2 k ∧
        ∀ j, 0 < j → j < k → variantName (splitext f).1 (splitext f).2 j ∈ dest)) := by
  refine ⟨?_, ?_, rfl, ?_, resolveCollision_spec⟩
  · intro f hf ha
    exact processFilesAux_allowed_mem exts tempFiles dest0 [] f hf ha
  · rw [show (_process_files exts tempFiles dest0).deleted
        = (processFilesAux exts tempFiles dest0 []).2 from rfl,
      processFilesAux_deleted]
    rw [List.nil_append]
  · intro n h
    exact processFilesAux_mem_mono exts tempFiles dest0 [] n h

/-- Witness for C5: allow-list `{mp4}`, temp tree `clip.mp4, notes.txt`,
destination already holding `clip.mp4` (the spec's own example: the moved
file lands as `clip_1.mp4`, the text file is deleted). -/
theorem C5_processing_moves_allowed_deletes_rest_witness :
    (∃ n, n ∈ (_process_files (normalizeExts ["mp4".toList])
          ["clip.mp4".toList, "notes.txt".toList] ["clip.mp4".toList]).dest ∧
        (n = "clip.mp4".toList ∨ ∃ k, 0 < k ∧
          n = variantName (splitext "clip.mp4".toList).1
            (splitext "clip.mp4".toList).2 k)) ∧
    (_process_files (normalizeExts ["mp4".toList])
        ["clip.mp4".toList, "notes.txt".toList] ["clip.mp4".toList]).deleted
      = ["notes.txt".toList] ∧
    (_process_files (normalizeExts ["mp4".toList])
        ["clip.mp4".toList, "notes.txt".toList] ["clip.mp4".toList]).tempRemoved
      = true ∧
    "clip_1.mp4".toList ∈ (_process_files (normalizeExts ["mp4".toList])
        ["clip.mp4".toList, "notes.txt".toList] ["clip.mp4".toList]).dest := by
  have h := C5_processing_moves_allowed_deletes_rest (normalizeExts ["mp4".toList])
    ["clip.mp4".toList, "notes.txt".toList] ["clip.mp4".toList]
  refine ⟨h.1 "clip.mp4".toList (by decide) (by decide),
    (h.2.1).trans (by decide), h.2.2.1, by decide⟩

/-! ## Claims about the torrent manager -/

/-- **C8**: `delete_job` on an unknown id returns false and leaves the
registry and the filesystem untouched (no effects at all); on a known id
it returns true, the id disappears from the snapshot listing, the
remaining registry entries are a subset of the old ones, and the effects
are exactly cancel, a bounded join (timeout 1.0) and the removal of the
job's temp directory — the only directory ever removed is the temp dir,
never anything under `dest_dir`. -/
theorem C8_delete_job_spec (st : ManagerState) (jid : String) :
    (st.jobs.lookup jid = none → delete_job st jid = (false, st, [])) ∧
    (∀ job : MJob, st.jobs.lookup jid = some job →
      (delete_job st jid).1 = true ∧
      jid ∉ list_jobs_ids (delete_job st jid).2.1 ∧
      (∀ p ∈ (delete_job st jid).2.1.jobs, p ∈ st.jobs) ∧
      (delete_job st jid).2.2
        = [.cancelRequested jid, .joinedBounded jid 1, .removedDir job.temp_dir] ∧
      ∀ d, MEffect.removedDir d ∈ (delete_job st jid).2.2 → d = job.temp_dir) := by
  constructor
  · intro h
    unfold delete_job
    rw [h]
  · intro job h
    unfold delete_job
    rw [h]
    refine ⟨rfl, ?_, ?_, rfl, ?_⟩
    · intro hm
      obtain ⟨p, hp, hpe⟩ := List.mem_map.mp hm
      have hf := List.of_mem_filter hp
      rw [hpe] at hf
      simp at hf
    · intro p hp
      exact List.mem_of_mem_filter hp
    · intro d hd
      simp only [List.mem_cons, List.not_mem_nil, or_false] at hd
      rcases hd with hd | hd | hd
      · exact MEffect.noConfusion hd
      · exact MEffect.noConfusion hd
      · injection hd

/-- Witness for C8 on the sample registry: unknown id `"b"`, known id
`"a"`. -/
theorem C8_delete_job_spec_witness :
    delete_job sampleManager "b" = (false, sampleManager, []) ∧
    ((delete_job sampleManager "a").1 = true ∧
      "a" ∉ list_jobs_ids (delete_job sampleManager "a").2.1 ∧
      (∀ p ∈ (delete_job sampleManager "a").2.1.jobs, p ∈ sampleManager.jobs) ∧
      (delete_job sampleManager "a").2.2
        = [.cancelRequested "a", .joinedBounded "a" 1,
           .removedDir sampleMJob.temp_dir] ∧
      ∀ d, MEffect.removedDir d ∈ (delete_job sampleManager "a").2.2 →
        d = sampleMJob.temp_dir) :=
  ⟨(C8_delete_job_spec sampleManager "b").1 (by decide),
   (C8_delete_job_spec sampleManager "a").2 sampleMJob (by decide)⟩

/-- **C10**: `cancel()` on a terminal job changes no observable field —
`to_dict` does not serialize the internal `_cancel_requested` flag — and
a second `cancel()` changes nothing at all (the flag write is
idempotent).  The worker thread has already returned in a terminal state,
so no code path reads the flag again. -/
theorem C10_cancel_on_terminal_is_noop (j : JobState)
    (hterm : isTerminal j.status = true) :
    TorrentJob_to_dict (TorrentJob_cancel j) = TorrentJob_to_dict j ∧
    TorrentJob_cancel (TorrentJob_cancel j) = TorrentJob_cancel j :=
  ⟨rfl, rfl⟩

/-- Witness for C10 at a completed job. -/
theorem C10_cancel_on_terminal_is_noop_witness :
    TorrentJob_to_dict (TorrentJob_cancel sampleTerminalJob)
        = TorrentJob_to_dict sampleTerminalJob ∧
    TorrentJob_cancel (TorrentJob_cancel sampleTerminalJob)
        = TorrentJob_cancel sampleTerminalJob :=
  C10_cancel_on_terminal_is_noop sampleTerminalJob (by decide)

end MyTube
